import Mathlib

/-!
Verification of the NodeInterner core of the Noir compiler frontend
(src/compiler/noirc_frontend/src/node_interner.rs).

The interner's own operations are translated directly from the source file.
The helper types it consumes (`Type`, unification, substitution, spans and
locations, the node arena) live in sibling crates of the repository that are
not part of the sampled sources, so they are modelled from the specification;
each such definition carries a doc comment starting with "Modelled from the
spec:".

Id types (`ExprId`, `FuncId`, `TraitId`, `TraitImplId`, `StructId`, ...) are
represented as plain natural numbers; the Rust arena generation counters are
not modelled.  Panic paths (internal compiler errors) are modelled with
`Option`/default values at the call sites where they cannot influence the
verified claims; the panic message texts themselves are embedded verbatim as
string constants below.
-/

/-- Modelled from the spec: a `Span` is an opaque half-open source region
with `contains` and `is_smaller` comparators (spec section 6).  `start` and
`stop` delimit the region. -/
structure Span where
  start : Nat
  stop : Nat
deriving DecidableEq, Repr

/-- Modelled from the spec: span containment used by `find_location_index`. -/
def Span.contains (a b : Span) : Bool :=
  decide (a.start ≤ b.start) && decide (b.stop ≤ a.stop)

/-- Modelled from the spec: `is_smaller` compares the widths of two spans;
`find_location_index` uses it to prefer the innermost node. -/
def Span.is_smaller (a b : Span) : Bool :=
  decide (a.stop - a.start < b.stop - b.start)

/-- Modelled from the spec: `Location = {Span, FileId}` (spec section 6).
File ids are natural numbers. -/
structure Location where
  span : Span
  file : Nat
deriving DecidableEq, Repr

/-- Modelled from the spec: a location contains another when the files agree
and the span contains the other span. -/
def Location.contains (a b : Location) : Bool :=
  (a.file == b.file) && a.span.contains b.span

/-- Modelled from the spec: integer signedness for the `Integer` type. -/
inductive Signedness where
  | signed
  | unsigned
deriving DecidableEq, Repr

/-- Modelled from the spec: the kind of a type variable.  Only
`integerOrField` is distinguished by `get_type_method_key`. -/
inductive TypeVariableKind where
  | normal
  | integerOrField
  | constant (n : Nat)
deriving DecidableEq, Repr

/-- Modelled from the spec: the HIR `Type` of the frontend (`hir_def/types`),
named `NoirType` because `Type` is a Lean universe.  Struct types carry the
struct id directly (the Rust side stores a shared reference whose `id` field
is read), and type variables are plain ids: the shared mutable binding store
is not modelled, so variables in the model are always unbound and bindings
are carried explicitly in `TypeBindings` maps. -/
inductive NoirType where
  | FieldElement
  | Array (size : NoirType) (element : NoirType)
  | Integer (sign : Signedness) (bits : Nat)
  | Bool
  | String (len : NoirType)
  | FmtString (len : NoirType) (env : NoirType)
  | Unit
  | Tuple (elements : List NoirType)
  | Struct (id : Nat) (args : List NoirType)
  | TraitAsType (id : Nat)
  | Function (args : List NoirType) (ret : NoirType) (env : NoirType)
  | MutableReference (element : NoirType)
  | Forall (vars : List Nat) (body : NoirType)
  | Constant (n : Nat)
  | NotConstant
  | Error
  | TypeVariable (id : Nat) (kind : TypeVariableKind)
  | NamedGeneric (id : Nat) (name : String)
deriving Repr

/-- Modelled from the spec: a type binding maps a type-variable id to a
concrete type (spec glossary).  Lookup uses the first matching entry, so
prepending a pair overrides earlier bindings for the same id. -/
abbrev TypeBindings := List (Nat × NoirType)

/-- Look up a type-variable id in a binding list. -/
def bindingsLookup (bs : TypeBindings) (i : Nat) : Option NoirType :=
  (bs.find? (fun p => p.1 == i)).map (fun p => p.2)

/-- Insert a binding, overriding any earlier binding for the same id. -/
def bindInsert (bs : TypeBindings) (i : Nat) (t : NoirType) : TypeBindings :=
  (i, t) :: bs

/-- Extend a binding list with every binding of a second list (the Rust
`type_bindings.extend(fresh_bindings)`). -/
def extendBindings (bs fresh : TypeBindings) : TypeBindings :=
  fresh.foldl (fun acc p => bindInsert acc p.1 p.2) bs

/-- Modelled from the spec: one top-down pass replacing bound variables by
their bindings.  The fuel argument makes the recursion through the nested
lists structural; any fuel at least the depth of the type is enough. -/
def substOnceF (bs : TypeBindings) : Nat → NoirType → NoirType
  | 0, t => t
  | f+1, t =>
    match t with
    | .TypeVariable i k =>
      match bindingsLookup bs i with
      | some t2 => t2
      | none => .TypeVariable i k
    | .NamedGeneric i n =>
      match bindingsLookup bs i with
      | some t2 => t2
      | none => .NamedGeneric i n
    | .Array n e => .Array (substOnceF bs f n) (substOnceF bs f e)
    | .String n => .String (substOnceF bs f n)
    | .FmtString n e => .FmtString (substOnceF bs f n) (substOnceF bs f e)
    | .Tuple ts => .Tuple (ts.map (substOnceF bs f))
    | .Struct i args => .Struct i (args.map (substOnceF bs f))
    | .Function as r e =>
      .Function (as.map (substOnceF bs f)) (substOnceF bs f r) (substOnceF bs f e)
    | .MutableReference e => .MutableReference (substOnceF bs f e)
    | .Forall vs body => .Forall vs (substOnceF bs f body)
    | t => t

/-- Fuel used by the substitution and unification models; far larger than the
depth of any type manipulated by the claims. -/
def SUBST_FUEL : Nat := 100

/-- Modelled from the spec: `Type::substitute` applies a binding map to a
type.  Chains of bindings (a variable bound to another bound variable) are
resolved by iterating one pass per binding. -/
def NoirType.substitute (t : NoirType) (bs : TypeBindings) : NoirType :=
  Nat.rec t (fun _ acc => substOnceF bs SUBST_FUEL acc) bs.length

/-- Modelled from the spec: `Type::force_substitute` overwrites even
already-bound variables; the model's variables are always unbound, so it
coincides with `substitute`. -/
def NoirType.force_substitute (t : NoirType) (bs : TypeBindings) : NoirType :=
  t.substitute bs

/-- Resolve a type variable through a binding list until an unbound head is
reached; the fuel bounds the chase through binding chains. -/
def resolveHead (bs : TypeBindings) : Nat → NoirType → NoirType
  | 0, t => t
  | f+1, t =>
    match t with
    | .TypeVariable i k =>
      match bindingsLookup bs i with
      | some t2 => resolveHead bs f t2
      | none => .TypeVariable i k
    | t => t

/-- Fuel used by the unification model. -/
def UNIFY_FUEL : Nat := 100

/-- Modelled from the spec: `Type::try_unify` structurally matches two types,
binding type variables as needed, and returns an extended binding set or
fails (spec glossary).  `Error` unifies with anything (error recovery);
`NamedGeneric` is rigid: it only unifies with itself.  The fuel argument
makes the recursion structural; the claims always run with ample fuel. -/
def try_unify : Nat → TypeBindings → NoirType → NoirType → Option TypeBindings
  | 0, _, _, _ => none
  | f+1, bs, a, b =>
    let a := resolveHead bs (bs.length + 1) a
    let b := resolveHead bs (bs.length + 1) b
    match a, b with
    | .TypeVariable i _, .TypeVariable j k =>
      if i = j then some bs else some (bindInsert bs i (.TypeVariable j k))
    | .TypeVariable i _, t => some (bindInsert bs i t)
    | t, .TypeVariable j _ => some (bindInsert bs j t)
    | .Error, _ => some bs
    | _, .Error => some bs
    | .FieldElement, .FieldElement => some bs
    | .Bool, .Bool => some bs
    | .Unit, .Unit => some bs
    | .NotConstant, .NotConstant => some bs
    | .Integer s1 b1, .Integer s2 b2 =>
      if s1 = s2 ∧ b1 = b2 then some bs else none
    | .Constant n, .Constant m => if n = m then some bs else none
    | .TraitAsType i, .TraitAsType j => if i = j then some bs else none
    | .NamedGeneric i _, .NamedGeneric j _ => if i = j then some bs else none
    | .Array n1 e1, .Array n2 e2 =>
      match try_unify f bs n1 n2 with
      | none => none
      | some bs1 => try_unify f bs1 e1 e2
    | .String n1, .String n2 => try_unify f bs n1 n2
    | .FmtString n1 e1, .FmtString n2 e2 =>
      match try_unify f bs n1 n2 with
      | none => none
      | some bs1 => try_unify f bs1 e1 e2
    | .MutableReference e1, .MutableReference e2 => try_unify f bs e1 e2
    | .Tuple ts1, .Tuple ts2 =>
      if ts1.length = ts2.length then
        (ts1.zip ts2).foldlM (fun acc p => try_unify f acc p.1 p.2) bs
      else none
    | .Struct i1 a1, .Struct i2 a2 =>
      if i1 = i2 ∧ a1.length = a2.length then
        (a1.zip a2).foldlM (fun acc p => try_unify f acc p.1 p.2) bs
      else none
    | .Function a1 r1 e1, .Function a2 r2 e2 =>
      if a1.length = a2.length then
        match (a1.zip a2).foldlM (fun acc p => try_unify f acc p.1 p.2) bs with
        | none => none
        | some bs1 =>
          match try_unify f bs1 r1 r2 with
          | none => none
          | some bs2 => try_unify f bs2 e1 e2
      else none
    | _, _ => none

/-- Modelled from the spec: collect the type-variable ids occurring free in a
type (both plain variables and named generics).  Fuel makes the nested-list
recursion structural. -/
def freeVarsF : Nat → NoirType → List Nat
  | 0, _ => []
  | f+1, t =>
    match t with
    | .TypeVariable i _ => [i]
    | .NamedGeneric i _ => [i]
    | .Array n e => freeVarsF f n ++ freeVarsF f e
    | .String n => freeVarsF f n
    | .FmtString n e => freeVarsF f n ++ freeVarsF f e
    | .Tuple ts => ts.flatMap (freeVarsF f)
    | .Struct _ args => args.flatMap (freeVarsF f)
    | .Function as r e =>
      as.flatMap (freeVarsF f) ++ freeVarsF f r ++ freeVarsF f e
    | .MutableReference e => freeVarsF f e
    | .Forall vs body => (freeVarsF f body).filter (fun i => ¬ vs.contains i)
    | _ => []

/-- An internal-compiler-error abort in `update_statement`, `statement` and
`let_statement` when a statement id points at an empty arena slot. -/
def iceMissingStatementMsg : String := "ice: all statement ids should have definitions"

/-- An internal-compiler-error abort when a statement id resolves to a node of
another variant. -/
def iceWrongVariantStatementMsg : String :=
  "ice: all statement ids should correspond to a statement in the interner"

/-- An internal-compiler-error abort when an expression id points at an empty
arena slot. -/
def iceMissingExpressionMsg : String := "ice: all expression ids should have definitions"

/-- An internal-compiler-error abort when an expression id resolves to a node
of another variant. -/
def iceWrongVariantExpressionMsg : String :=
  "ice: all expression ids should correspond to a expression in the interner"

/-- An internal-compiler-error abort when a function id points at an empty
arena slot. -/
def iceMissingFunctionMsg : String := "ice: all function ids should have definitions"

/-- An internal-compiler-error abort when a function id resolves to a node of
another variant. -/
def iceWrongVariantFunctionMsg : String :=
  "ice: all function ids should correspond to a function in the interner"

/-- The assertion message of `add_trait_implementation` when the caller's
reserved `TraitImplId` does not match the current vector length. -/
def traitImplOutOfOrderMsg : String := "trait impl defined out of order"

/-- The static part of the `try_add_operator_trait` abort when the first
method of an `Ord` trait is a `Forall` whose body is not a function type. -/
def cmpNotFunctionMsg : String := "Expected function type for `cmp`, found "

/-- The static part of the `try_add_operator_trait` abort when the first
method of an `Ord` trait does not have a `Forall` signature. -/
def cmpNotForallMsg : String := "Expected Forall type for `cmp`, found "

/-- The static part of the `add_method` abort when the receiver type cannot
carry methods. -/
def unsupportedMethodReceiverMsg : String := "Cannot add a method to the unsupported type '"

/-- The static part of the `Methods::find_matching_method` abort when a
method's instantiated type is neither a function type nor `Error`. -/
def methodNotFunctionMsg : String := "Expected function type, found "

/-- True when a panic message carries the internal-compiler-error tag the
spec ascribes to every ICE abort. -/
def iceTagged (m : String) : Bool := m.toList.take 5 == "ice: ".toList

/-- The HIR expression node.  Only the variants the verified operations
inspect are modelled; `empty_block` is the pre-seeded empty block. -/
inductive HirExpression where
  | Block (statements : List Nat)
  | Literal (n : Nat)
  | Error
deriving DecidableEq, Repr

/-- The empty block expression inserted by `NodeInterner::default`. -/
def HirExpression.empty_block : HirExpression := .Block []

/-- The HIR statement node (modelled by its error variant only; no claim
reads statement contents). -/
inductive HirStatement where
  | Error
deriving DecidableEq, Repr

/-- The HIR function node: a wrapper around its body expression id. -/
structure HirFunction where
  as_expr : Nat
deriving DecidableEq, Repr

/-- A node of the single arena: function, statement or expression. -/
inductive Node where
  | Function (f : HirFunction)
  | Statement (s : HirStatement)
  | Expression (e : HirExpression)
deriving DecidableEq, Repr

/-- The methods of a given name on a given type, split into inherent
(`direct`) and trait-impl methods. -/
structure Methods where
  direct : List Nat
  trait_impl_methods : List Nat
deriving DecidableEq, Repr

/-- A trait implementation is either a Normal impl from an `impl` block or an
impl Assumed to exist from a `where` clause. -/
inductive TraitImplKind where
  | Normal (id : Nat)
  | Assumed (object_type : NoirType)
deriving Repr

/-- True for `TraitImplKind::Normal`. -/
def TraitImplKind.isNormal : TraitImplKind → Bool
  | .Normal _ => true
  | .Assumed _ => false

/-- A trait constraint `{typ, trait_id}`: an obligation that `typ` implements
the trait (from `hir_def/traits`, modelled by the fields the interner
reads). -/
structure TraitConstraint where
  typ : NoirType
  trait_id : Nat
deriving Repr

/-- A trait implementation record (from `hir_def/traits`, modelled by the
fields the interner reads): its defining ident span and file, the implemented
trait, the method ids and the `where` clause. -/
structure TraitImpl where
  ident_span : Span
  file : Nat
  trait_id : Nat
  methods : List Nat
  where_clause : List TraitConstraint
deriving Repr

/-- The default record used to model indexing `trait_implementations` (the
source panics on an out-of-range `TraitImplId`; no verified claim reaches
that path). -/
def defaultTraitImpl : TraitImpl :=
  { ident_span := ⟨0, 0⟩, file := 0, trait_id := 0, methods := [], where_clause := [] }

/-- A trait method signature (from `hir_def/traits`, modelled by its type,
the only field `try_add_operator_trait` reads). -/
structure TraitMethod where
  typ : NoirType
deriving Repr

/-- A trait definition (from `hir_def/traits`, modelled by the fields the
verified operations read: its name and method signatures). -/
structure TraitDef where
  name : String
  methods : List TraitMethod
deriving Repr

/-- The binary operator kinds of the AST. -/
inductive BinaryOpKind where
  | Add
  | Subtract
  | Multiply
  | Divide
  | Modulo
  | Equal
  | NotEqual
  | Less
  | LessEqual
  | Greater
  | GreaterEqual
  | And
  | Or
  | Xor
  | ShiftLeft
  | ShiftRight
deriving DecidableEq, Repr

/-- The primitive type variants that support adding methods. -/
inductive TypeMethodKey where
  | FieldOrInt
  | Array
  | Bool
  | String
  | FmtString
  | Unit
  | Tuple
  | Function
  | Generic
deriving DecidableEq, Repr

/-- Function metadata (modelled by the one field the verified operations
read: the function's type, consulted by `Methods::find_matching_method`). -/
structure FuncMeta where
  typ : NoirType
deriving Repr

/-- Function modifiers (modelled by the one field the verified operations
read: the function's name, consulted by `function_name`). -/
structure FunctionModifiers where
  name : String
deriving Repr

/-- The node interner, restricted to the fields the verified claims touch.
Hash maps keyed by ids are modelled as functions into `Option`; the
`id_to_location` map is kept as an association list because
`find_location_index` iterates it.  Omitted fields (definitions, structs,
aliases, globals, instantiation bindings, field indices, selected impls,
modules) are not read by any claim. -/
structure NodeInterner where
  nodes : List Node
  id_to_location : List (Nat × Location)
  function_modifiers : Nat → Option FunctionModifiers
  func_meta : Nat → Option FuncMeta
  traits : Nat → Option TraitDef
  trait_implementations : List TraitImpl
  trait_implementation_map : Nat → Option (List (NoirType × TraitImplKind))
  operator_traits : BinaryOpKind → Option Nat
  ordering_type : Option NoirType
  struct_methods : Nat × String → Option Methods
  primitive_methods : TypeMethodKey × String → Option Methods
  next_type_variable_id : Nat

/-- The interner before the empty-block expression is inserted: every table
empty (the struct literal inside `Default::default`). -/
def NodeInterner.empty : NodeInterner where
  nodes := []
  id_to_location := []
  function_modifiers := fun _ => none
  func_meta := fun _ => none
  traits := fun _ => none
  trait_implementations := []
  trait_implementation_map := fun _ => none
  operator_traits := fun _ => none
  ordering_type := none
  struct_methods := fun _ => none
  primitive_methods := fun _ => none
  next_type_variable_id := 0

/-- The canonical id of the pre-seeded empty-block expression
(`ExprId::empty_block_id`, arena index 0). -/
def ExprId.empty_block_id : Nat := 0

/-- Interns a HIR expression (`push_expr`).  Modelled from the spec: the
arena is append-only and the fresh index is the number of nodes stored. -/
def NodeInterner.push_expr (s : NodeInterner) (expr : HirExpression) : Nat × NodeInterner :=
  (s.nodes.length, { s with nodes := s.nodes ++ [Node.Expression expr] })

/-- Interns a HIR statement (`push_stmt`). -/
def NodeInterner.push_stmt (s : NodeInterner) (stmt : HirStatement) : Nat × NodeInterner :=
  (s.nodes.length, { s with nodes := s.nodes ++ [Node.Statement stmt] })

/-- Interns a HIR function (`push_fn`). -/
def NodeInterner.push_fn (s : NodeInterner) (func : HirFunction) : Nat × NodeInterner :=
  (s.nodes.length, { s with nodes := s.nodes ++ [Node.Function func] })

/-- Constructs the interner and seeds the empty-block expression
(`Default::default`; the source asserts that the returned id equals
`ExprId::empty_block_id`). -/
def NodeInterner.default : NodeInterner :=
  (NodeInterner.empty.push_expr HirExpression.empty_block).2

/-- Returns the interned expression for an id (`expression`).  The source
panics on an empty slot (`iceMissingExpressionMsg`) or another variant
(`iceWrongVariantExpressionMsg`); the model returns `none` there. -/
def NodeInterner.expression (s : NodeInterner) (expr_id : Nat) : Option HirExpression :=
  match s.nodes.get? expr_id with
  | some (Node.Expression e) => some e
  | _ => none

/-- Inserts a key into an association list, replacing an existing entry for
the key (the semantics of a hash-map insert). -/
def assocInsert (l : List (Nat × Location)) (key : Nat) (v : Location) :
    List (Nat × Location) :=
  if (l.find? (fun p => p.1 == key)).isSome then
    l.map (fun p => if p.1 == key then (key, v) else p)
  else l ++ [(key, v)]

/-- Stores the location for an interned expression (`push_expr_location`).
The map insert replaces an existing entry for the key. -/
def NodeInterner.push_expr_location (s : NodeInterner) (expr_id : Nat) (span : Span)
    (file : Nat) : NodeInterner :=
  { s with id_to_location := assocInsert s.id_to_location expr_id (Location.mk span file) }

/-- One step of the `find_location_index` scan: keep the candidate with the
smaller containing span. -/
def locationStep (location : Location) (acc : Option (Nat × Location))
    (entry : Nat × Location) : Option (Nat × Location) :=
  if entry.2.contains location then
    match acc with
    | some current => if entry.2.span.is_smaller current.2.span then some entry else acc
    | none => some entry
  else acc

/-- Scans the location table for the item located at the given location,
preferring the entry with the smaller (innermost) span
(`find_location_index`). -/
def NodeInterner.find_location_index (s : NodeInterner) (location : Location) : Option Nat :=
  (s.id_to_location.foldl (locationStep location) none).map (fun p => p.1)

/-- Returns the name recorded in a function's modifiers (`function_name`).
The source indexes the modifiers map and panics when the id is absent; the
model returns the empty string there. -/
def NodeInterner.function_name (s : NodeInterner) (func_id : Nat) : String :=
  match s.function_modifiers func_id with
  | some m => m.name
  | none => ""

/-- Retrieves a trait implementation by id (`get_trait_implementation`).
The source indexes the vector and panics when out of range; the model
returns `defaultTraitImpl` there (no verified claim reaches that path). -/
def NodeInterner.get_trait_implementation (s : NodeInterner) (id : Nat) : TraitImpl :=
  (s.trait_implementations.get? id).getD defaultTraitImpl

/-- Returns what the next trait impl id is expected to be
(`next_trait_impl_id`). -/
def NodeInterner.next_trait_impl_id (s : NodeInterner) : Nat :=
  s.trait_implementations.length

/-- Modelled from the spec: `Type::follow_bindings` resolves a type through
the shared mutable binding store; the model's variables are always unbound,
so it is the identity. -/
def NoirType.follow_bindings (t : NoirType) : NoirType := t

/-- Maps a type to the primitive-method key it files methods under
(`get_type_method_key`); `none` for the variants that cannot carry methods.
The source first calls `follow_bindings` on the type; that call is the
identity in the model (variables are unbound), so the match is written on
the type itself to keep the recursion structural. -/
def get_type_method_key (typ : NoirType) : Option TypeMethodKey :=
  match typ with
  | .FieldElement => some .FieldOrInt
  | .Array _ _ => some .Array
  | .Integer _ _ => some .FieldOrInt
  | .TypeVariable _ .integerOrField => some .FieldOrInt
  | .Bool => some .Bool
  | .String _ => some .String
  | .FmtString _ _ => some .FmtString
  | .Unit => some .Unit
  | .Tuple _ => some .Tuple
  | .Function _ _ _ => some .Function
  | .NamedGeneric _ _ => some .Generic
  | .MutableReference element => get_type_method_key element
  | _ => none

/-- Get a single, unambiguous method for a name if one exists
(`Methods::get_unambiguous`): a single direct method wins, else a single
trait-impl method when there are no direct ones. -/
def Methods.get_unambiguous (ms : Methods) : Option Nat :=
  if ms.direct.length = 1 then ms.direct.head?
  else if ms.direct.isEmpty ∧ ms.trait_impl_methods.length = 1 then
    ms.trait_impl_methods.head?
  else none

/-- Appends a method id to the direct or trait-impl list
(`Methods::add_method`). -/
def Methods.add_method (ms : Methods) (method : Nat) (is_trait_method : Bool) : Methods :=
  if is_trait_method then
    { ms with trait_impl_methods := ms.trait_impl_methods ++ [method] }
  else
    { ms with direct := ms.direct ++ [method] }

/-- Iterates the methods, direct ones first (`Methods::iter`). -/
def Methods.iter (ms : Methods) : List Nat :=
  ms.direct ++ ms.trait_impl_methods

/-- Modelled from the spec: `Type::instantiate` substitutes fresh variables
for a `Forall` type's bound variables and returns them as instantiation
bindings; any other type is returned unchanged with empty bindings.  Fresh
ids start at the interner's type-variable counter (the counter advance
through the shared cell is not observable by any claim and is not
modelled). -/
def NoirType.instantiate (t : NoirType) (s : NodeInterner) : NoirType × TypeBindings :=
  match t with
  | .Forall vars body =>
    let bs : TypeBindings :=
      vars.enum.map
        (fun p => (p.2, NoirType.TypeVariable (s.next_type_variable_id + p.1) .normal))
    (body.substitute bs, bs)
  | t => (t, [])

/-- Modelled from the spec: `Type::instantiate_type_variables` replaces each
free type variable of a type with a fresh one, returning the substitution
from original to fresh ids ("Instantiate the object type with fresh type
variables", spec section 4.4 step 3). -/
def instantiate_type_variables (t : NoirType) (s : NodeInterner) :
    NoirType × List (Nat × Nat) :=
  let vs := (freeVarsF SUBST_FUEL t).dedup
  let subs := vs.enum.map (fun p => (p.2, s.next_type_variable_id + p.1))
  let bs : TypeBindings :=
    subs.map (fun p => (p.1, NoirType.TypeVariable p.2 .normal))
  (t.substitute bs, subs)

/-- Modelled from the spec: `Type::generalize_from_substitutions` rebinds the
fresh variables of `instantiate_type_variables` back to the original generics
(spec section 4.4 step 6). -/
def generalize_from_substitutions (t : NoirType) (subs : List (Nat × Nat)) : NoirType :=
  t.substitute (subs.map (fun p => (p.2, NoirType.TypeVariable p.1 .normal)))

/-- The recursion-depth limit of the impl search
(`IMPL_SEARCH_RECURSION_LIMIT`). -/
def IMPL_SEARCH_RECURSION_LIMIT : Nat := 10

/-- Fuel for the impl-search recursion.  The Rust recursion is bounded only
by `recursion_limit`; Lean additionally needs a structurally decreasing
argument, so every recursive call consumes one unit of this fuel.  The
wrapper below supplies fuel far larger than any call chain the bounded
search can produce for the states the claims evaluate. -/
def HELPER_FUEL : Nat := 1000

/-- The body of `lookup_trait_implementation_helper` together with the
inlined `validate_where_clause`.  The source loop returns at the first
candidate whose unification succeeds (earlier failing candidates neither
bind nor return), so the loop is expressed as a first-match search with
`findSome?`; likewise `validate_where_clause` fails with the error chain of
the first failing constraint.  On unification success the fresh bindings are
appended to the accumulated ones, a Normal impl's `where` clause is
validated with the remaining budget (each clause type gets the candidate's
instantiation bindings force-substituted and then the accumulated bindings
applied, and is checked against a fresh binding set with `limit - 1`), and a
failure chain gets the current constraint appended. -/
def helperF (s : NodeInterner) :
    Nat → NoirType → Nat → TypeBindings → Nat →
    Except (List TraitConstraint) (TraitImplKind × TypeBindings)
  | 0, ot, tr, _, _ => .error [⟨ot, tr⟩]
  | f+1, ot, tr, tb, limit =>
    match limit with
    | 0 => .error [⟨ot, tr⟩]
    | l+1 =>
      let otS := ot.substitute tb
      match s.trait_implementation_map tr with
      | none => .error [⟨ot, tr⟩]
      | some impls =>
        match impls.findSome? (fun p =>
            let inst := p.1.instantiate s
            (try_unify UNIFY_FUEL [] otS inst.1).map
              (fun fresh => (p.2, inst.2, fresh))) with
        | none => .error [⟨ot, tr⟩]
        | some (kind, instB, fresh) =>
          let tb2 := extendBindings tb fresh
          match kind with
          | .Assumed o => .ok (.Assumed o, tb2)
          | .Normal impl_id =>
            let wc := (s.get_trait_implementation impl_id).where_clause
            match wc.findSome? (fun c =>
                let ct := (c.typ.force_substitute instB).substitute tb2
                match helperF s f ct c.trait_id [] l with
                | .error e => some e
                | .ok _ => none) with
            | some errs => .error (errs ++ [⟨ot, tr⟩])
            | none => .ok (.Normal impl_id, tb2)

/-- Searches for an impl of the trait for the object type with a bounded
recursion depth (`lookup_trait_implementation_helper`). -/
def NodeInterner.lookup_trait_implementation_helper (s : NodeInterner)
    (object_type : NoirType) (trait_id : Nat) (type_bindings : TypeBindings)
    (recursion_limit : Nat) :
    Except (List TraitConstraint) (TraitImplKind × TypeBindings) :=
  helperF s HELPER_FUEL object_type trait_id type_bindings recursion_limit

/-- Tries to find an impl satisfying `object_type: trait_id` and returns the
bindings without applying them (`try_lookup_trait_implementation`). -/
def NodeInterner.try_lookup_trait_implementation (s : NodeInterner)
    (object_type : NoirType) (trait_id : Nat) :
    Except (List TraitConstraint) (TraitImplKind × TypeBindings) :=
  s.lookup_trait_implementation_helper object_type trait_id []
    IMPL_SEARCH_RECURSION_LIMIT

/-- Finds an impl satisfying `object_type: trait_id` and applies the
 bindings on success (`lookup_trait_implementation`).  The binding
application mutates the shared type-variable store, which the model does not
represent; no verified claim observes it. -/
def NodeInterner.lookup_trait_implementation (s : NodeInterner) (object_type : NoirType)
    (trait_id : Nat) : Except (List TraitConstraint) TraitImplKind :=
  (s.try_lookup_trait_implementation object_type trait_id).map (fun p => p.1)

/-- Replaces the per-trait entry list of the trait-implementation map (the
hash-map insert through `entry(trait_id)`). -/
def NodeInterner.setImplMap (s : NodeInterner) (trait_id : Nat)
    (entries : List (NoirType × TraitImplKind)) : NodeInterner :=
  { s with trait_implementation_map := fun t =>
      if t = trait_id then some entries else s.trait_implementation_map t }

/-- Adds an assumed trait implementation unless an overlapping impl already
resolves (`add_assumed_trait_implementation`). -/
def NodeInterner.add_assumed_trait_implementation (s : NodeInterner)
    (object_type : NoirType) (trait_id : Nat) : Bool × NodeInterner :=
  match s.try_lookup_trait_implementation object_type trait_id with
  | .ok _ => (false, s)
  | .error _ =>
    let entries := (s.trait_implementation_map trait_id).getD []
    (true, s.setImplMap trait_id
      (entries ++ [(object_type, TraitImplKind.Assumed object_type)]))

/-- Removes all Assumed entries from the known impls of a trait
(`remove_assumed_trait_implementations_for_trait`). -/
def NodeInterner.remove_assumed_trait_implementations_for_trait (s : NodeInterner)
    (trait_id : Nat) : NodeInterner :=
  let entries := (s.trait_implementation_map trait_id).getD []
  s.setImplMap trait_id (entries.filter (fun p => p.2.isNormal))

/-- The check `Methods::find_matching_method` runs per candidate: the
method's function type is instantiated, its first parameter read, and
unification with the query type attempted.  A method with `Error` type is
skipped; the source panics (`methodNotFunctionMsg`) on any other non-function
shape and when the meta map misses the id, both modelled as no-match. -/
def methodSignatureMatches (s : NodeInterner) (typ : NoirType) (method : Nat) : Bool :=
  match s.func_meta method with
  | none => false
  | some meta =>
    match (meta.typ.instantiate s).1 with
    | .Function args _ _ =>
      match args.head? with
      | some object => (try_unify UNIFY_FUEL [] object typ).isSome
      | none => false
    | _ => false

/-- Selects the first method whose object type matches `typ`
(`Methods::find_matching_method`).  The source applies the unification's
bindings to the shared store on success, which the model does not
represent. -/
def Methods.find_matching_method (ms : Methods) (typ : NoirType) (s : NodeInterner) :
    Option Nat :=
  ms.iter.find? (methodSignatureMatches s typ)

/-- Selects the matching method, falling back to blanket impls for all types
`T` kept under the `Generic` primitive key (`NodeInterner::find_matching_method`). -/
def NodeInterner.find_matching_method (s : NodeInterner) (typ : NoirType)
    (methods : Methods) (method_name : String) : Option Nat :=
  match methods.find_matching_method typ s with
  | some method => some method
  | none =>
    match s.primitive_methods (TypeMethodKey.Generic, method_name) with
    | none => none
    | some global_methods => global_methods.find_matching_method typ s

/-- Searches by name for a method on the given struct (`lookup_method`).
Without `force_type_check`, a single unambiguous candidate is returned
immediately; otherwise each candidate's type is checked. -/
def NodeInterner.lookup_method (s : NodeInterner) (typ : NoirType) (id : Nat)
    (method_name : String) (force_type_check : Bool) : Option Nat :=
  match s.struct_methods (id, method_name) with
  | none => none
  | some methods =>
    if ¬ force_type_check then
      match methods.get_unambiguous with
      | some method => some method
      | none => s.find_matching_method typ methods method_name
    else s.find_matching_method typ methods method_name

/-- Replaces one entry of the struct-methods table (the hash-map insert
through `entry((id, method_name))`). -/
def NodeInterner.setStructMethods (s : NodeInterner) (key : Nat × String)
    (ms : Methods) : NodeInterner :=
  { s with struct_methods := fun k => if k = key then some ms else s.struct_methods k }

/-- Replaces one entry of the primitive-methods table (the hash-map insert
through `entry((key, method_name))`). -/
def NodeInterner.setPrimitiveMethods (s : NodeInterner) (key : TypeMethodKey × String)
    (ms : Methods) : NodeInterner :=
  { s with primitive_methods := fun k => if k = key then some ms else s.primitive_methods k }

/-- Adds a method to a type (`add_method`), returning a previously defined
method of the same name and object type when there is one.  Struct receivers
check for duplicates; `Error` receivers are skipped silently; mutable
references recurse; every other receiver files under its primitive key.  The
source panics (`unsupportedMethodReceiverMsg`) when `get_type_method_key`
has no key for the receiver; the model leaves the interner unchanged
there. -/
def NodeInterner.add_method (s : NodeInterner) (self_type : NoirType)
    (method_name : String) (method_id : Nat) (is_trait_method : Bool) :
    Option Nat × NodeInterner :=
  match self_type with
  | .Struct id _generics =>
    match s.lookup_method self_type id method_name true with
    | some existing => (some existing, s)
    | none =>
      let key : Nat × String := (id, method_name)
      let ms := ((s.struct_methods key).getD ⟨[], []⟩).add_method method_id is_trait_method
      (none, s.setStructMethods key ms)
  | .Error => (none, s)
  | .MutableReference element =>
    s.add_method element method_name method_id is_trait_method
  | other =>
    match get_type_method_key other with
    | some key =>
      let k2 : TypeMethodKey × String := (key, method_name)
      let ms := ((s.primitive_methods k2).getD ⟨[], []⟩).add_method method_id is_trait_method
      (none, s.setPrimitiveMethods k2 ms)
    | none => (none, s)

/-- Appends a trait implementation to the `trait_implementations` vector
(the push at the top of `add_trait_implementation`). -/
def NodeInterner.pushImpl (s : NodeInterner) (trait_impl : TraitImpl) : NodeInterner :=
  { s with trait_implementations := s.trait_implementations ++ [trait_impl] }

/-- Adds a trait implementation to the list of known implementations
(`add_trait_implementation`).  The source first asserts that the reserved
id equals the vector length (`traitImplOutOfOrderMsg`), modelled as the
`none` result; then the impl is pushed, the instantiated object type is
probed for an overlapping impl — a Normal hit fails with the prior impl's
defining ident span and file while an Assumed hit is ignored — and on
success each impl method is registered and the generalized object type is
appended to the per-trait entries. -/
def NodeInterner.add_trait_implementation (s : NodeInterner) (object_type : NoirType)
    (trait_id : Nat) (impl_id : Nat) (trait_impl : TraitImpl) :
    Option (Option (Span × Nat) × NodeInterner) :=
  if impl_id = s.trait_implementations.length then
    let s1 := s.pushImpl trait_impl
    let inst := instantiate_type_variables object_type s1
    match s1.try_lookup_trait_implementation inst.1 trait_id with
    | .ok (.Normal existing, _) =>
      let existing_impl := s1.get_trait_implementation existing
      some (some (existing_impl.ident_span, existing_impl.file), s1)
    | _ =>
      let s2 := trait_impl.methods.foldl
        (fun acc method =>
          (acc.add_method object_type (acc.function_name method) method true).2) s1
      let generalized := generalize_from_substitutions object_type inst.2
      let entries := (s2.trait_implementation_map trait_id).getD []
      some (none, s2.setImplMap trait_id
        (entries ++ [(generalized, TraitImplKind.Normal impl_id)]))
  else none

/-- Records the trait id for one binary operator (one hash-map insert of
`try_add_operator_trait`). -/
def NodeInterner.insertOperator (s : NodeInterner) (op : BinaryOpKind)
    (trait_id : Nat) : NodeInterner :=
  { s with operator_traits := fun k => if k = op then some trait_id else s.operator_traits k }

/-- Adds the trait as an operator trait when its name matches an operator
trait name (`try_add_operator_trait`).  `Eq` additionally binds `!=`; `Ord`
additionally binds `<=`, `>`, `>=` and extracts the ordering type from the
first method's `Forall(_, Function(_, ret, _))` signature.  The source
panics on a malformed `Ord` signature (`cmpNotForallMsg`,
`cmpNotFunctionMsg`), on a missing first method and on an unknown trait id;
those paths are the `none` result. -/
def NodeInterner.try_add_operator_trait (s : NodeInterner) (trait_id : Nat) :
    Option NodeInterner :=
  match s.traits trait_id with
  | none => none
  | some the_trait =>
    let operator : Option BinaryOpKind :=
      match the_trait.name with
      | "Add" => some .Add
      | "Sub" => some .Subtract
      | "Mul" => some .Multiply
      | "Div" => some .Divide
      | "Rem" => some .Modulo
      | "Eq" => some .Equal
      | "Ord" => some .Less
      | "BitAnd" => some .And
      | "BitOr" => some .Or
      | "BitXor" => some .Xor
      | "Shl" => some .ShiftLeft
      | "Shr" => some .ShiftRight
      | _ => none
    match operator with
    | none => some s
    | some op =>
      let s := s.insertOperator op trait_id
      match op with
      | .Equal => some (s.insertOperator BinaryOpKind.NotEqual trait_id)
      | .Less =>
        let s := ((s.insertOperator BinaryOpKind.LessEqual trait_id).insertOperator
          BinaryOpKind.Greater trait_id).insertOperator BinaryOpKind.GreaterEqual trait_id
        match s.traits trait_id with
        | none => none
        | some t2 =>
          match t2.methods.head? with
          | none => none
          | some m =>
            match m.typ with
            | .Forall _ (.Function _ ret _) => some { s with ordering_type := some ret }
            | _ => none
      | _ => some s

/-- The `u32` integer type, used by the concrete scenarios. -/
def u32T : NoirType := .Integer .unsigned 32

/-- A concrete first impl (methods and where clause empty, defining ident
span 10..12 in file 1). -/
def impA : TraitImpl :=
  { ident_span := ⟨10, 12⟩, file := 1, trait_id := 0, methods := [], where_clause := [] }

/-- A concrete second impl for the same trait and object type. -/
def impB : TraitImpl :=
  { ident_span := ⟨30, 34⟩, file := 1, trait_id := 0, methods := [], where_clause := [] }

/-- The interner after a successful `add_trait_implementation` of `impA` for
`u32: trait 0` on the fresh interner. -/
def s1C : NodeInterner :=
  ((NodeInterner.empty.add_trait_implementation u32T 0 0 impA).getD
    (none, NodeInterner.empty)).2

/-- An interner holding only an Assumed impl entry for `u32: trait 0`. -/
def assumedInterner : NodeInterner :=
  { NodeInterner.empty with
    trait_implementation_map := fun t =>
      if t = 0 then some [(u32T, TraitImplKind.Assumed u32T)] else none }

/-- The cyclic generic impl `impl<T> Foo for T where T: Foo` of trait 0:
its registered object type is a bare type variable and its where clause
requires the same variable to implement the same trait. -/
def cycImpl : TraitImpl :=
  { ident_span := ⟨0, 0⟩, file := 0, trait_id := 0, methods := [],
    where_clause := [⟨.TypeVariable 5 .normal, 0⟩] }

/-- The interner holding only the cyclic impl. -/
def cyclicInterner : NodeInterner :=
  { NodeInterner.empty with
    trait_implementations := [cycImpl],
    trait_implementation_map := fun t =>
      if t = 0 then some [(.TypeVariable 5 .normal, TraitImplKind.Normal 0)] else none }

/-- An interner whose location table holds two expressions with spans
0..100 and 40..60 in file 7. -/
def locInterner : NodeInterner :=
  { NodeInterner.empty with
    id_to_location := [(0, ⟨⟨0, 100⟩, 7⟩), (1, ⟨⟨40, 60⟩, 7⟩)] }

/-- A trait named `Ord` whose first method has the
`Forall(_, Function(_, ret, _))` signature with `ret` the `Ordering` struct
type. -/
def ordTrait : TraitDef :=
  { name := "Ord",
    methods := [⟨.Forall [3] (.Function [.TypeVariable 3 .normal, .TypeVariable 3 .normal]
      (.Struct 9 []) .Unit)⟩] }

/-- A trait named `Eq`. -/
def eqTrait : TraitDef := { name := "Eq", methods := [] }

/-- An interner with `Ord` registered as trait 4 and `Eq` as trait 5. -/
def opInterner : NodeInterner :=
  { NodeInterner.empty with
    traits := fun t => if t = 4 then some ordTrait else
      if t = 5 then some eqTrait else none }

/-- An interner with a struct-method entry `(7, "foo") -> direct [3]` whose
method 3 takes the struct type 7 as first parameter. -/
def structMethodInterner : NodeInterner :=
  { NodeInterner.empty with
    struct_methods := fun k => if k = (7, "foo") then some ⟨[3], []⟩ else none,
    func_meta := fun f =>
      if f = 3 then some ⟨.Function [.Struct 7 []] .Unit .Unit⟩ else none }

/-- Claim C7: on a freshly constructed store, the id produced by the
automatic insertion of the empty-block expression equals the canonical
constant `ExprId::empty_block_id` (arena index 0), and reading that id
yields an empty-block expression. -/
theorem claim_C7_empty_block_canonical :
    (NodeInterner.empty.push_expr HirExpression.empty_block).1 = ExprId.empty_block_id
    ∧ NodeInterner.default.expression ExprId.empty_block_id =
        some HirExpression.empty_block :=
  ⟨rfl, rfl⟩

/-- Claim C8, counterexample: the claim states that every
internal-compiler-error abort carries a message starting "ice: ", but the
out-of-order `TraitImplId` assertion of `add_trait_implementation` — one of
the aborts the claim itself cites — panics with "trait impl defined out of
order", which does not start with "ice: ". -/
theorem claim_C8_counterexample : iceTagged traitImplOutOfOrderMsg = false := by
  decide

/-- Claim C8, amended: the wrong-variant and empty-slot reads abort with
messages starting "ice: ", while the out-of-order `TraitImplId` assertion,
the malformed operator-trait signature aborts, the unsupported
method-receiver abort and the non-function method-type abort use messages
that do not start with "ice: ". -/
theorem claim_C8_ice_messages :
    iceTagged iceMissingStatementMsg = true
    ∧ iceTagged iceWrongVariantStatementMsg = true
    ∧ iceTagged iceMissingExpressionMsg = true
    ∧ iceTagged iceWrongVariantExpressionMsg = true
    ∧ iceTagged iceMissingFunctionMsg = true
    ∧ iceTagged iceWrongVariantFunctionMsg = true
    ∧ iceTagged traitImplOutOfOrderMsg = false
    ∧ iceTagged cmpNotForallMsg = false
    ∧ iceTagged cmpNotFunctionMsg = false
    ∧ iceTagged unsupportedMethodReceiverMsg = false
    ∧ iceTagged methodNotFunctionMsg = false := by
  refine ⟨?_, ?_, ?_, ?_, ?_, ?_, ?_, ?_, ?_, ?_, ?_⟩ <;> decide

/-- Claim C2: the impl search terminates: the recursion limit starts at 10,
the helper fails with the unresolved singleton constraint when the budget
reaches 0, and on the cyclic impl `impl<T> Foo for T where T: Foo` the
lookup returns an unresolved constraint chain instead of diverging (the
model's helper is a total function, so termination holds by
construction). -/
theorem claim_C2_recursion_bound :
    IMPL_SEARCH_RECURSION_LIMIT = 10
    ∧ (∀ (s : NodeInterner) (ot : NoirType) (tr : Nat) (tb : TypeBindings),
        s.lookup_trait_implementation_helper ot tr tb 0 = .error [⟨ot, tr⟩])
    ∧ (∀ (s : NodeInterner) (ot : NoirType) (tr : Nat),
        s.try_lookup_trait_implementation ot tr =
          s.lookup_trait_implementation_helper ot tr [] 10)
    ∧ (∃ c cs, cyclicInterner.lookup_trait_implementation u32T 0 = .error (c :: cs)) :=
  ⟨rfl, fun _ _ _ _ => rfl, fun _ _ _ => rfl,
    ⟨⟨u32T, 0⟩, List.replicate 10 ⟨u32T, 0⟩, rfl⟩⟩

/-- The scan step only ever holds candidates whose location contains the
query. -/
theorem locFold_some_facts (q : Location) :
    ∀ (l : List (Nat × Location)) (acc : Option (Nat × Location)),
      (∀ x, acc = some x → x.2.contains q = true) →
      ∀ r, l.foldl (locationStep q) acc = some r →
        (r ∈ l ∨ acc = some r) ∧ r.2.contains q = true := by
  intro l
  induction l with
  | nil =>
    intro acc hacc r h
    simp only [List.foldl_nil] at h
    exact ⟨Or.inr h, hacc r h⟩
  | cons p l ih =>
    intro acc hacc r h
    simp only [List.foldl_cons] at h
    have hacc2 : ∀ x, locationStep q acc p = some x → x.2.contains q = true := by
      intro x hx
      unfold locationStep at hx
      by_cases hc : p.2.contains q = true
      · rw [if_pos hc] at hx
        cases hcase : acc with
        | none => rw [hcase] at hx; simp only at hx; cases hx; exact hc
        | some cur =>
          rw [hcase] at hx
          simp only at hx
          by_cases hs : p.2.span.is_smaller cur.2.span = true
          · rw [if_pos hs] at hx; cases hx; exact hc
          · rw [if_neg hs] at hx; exact hacc x (hcase.trans hx)
      · simp only [Bool.not_eq_true] at hc
        rw [hc] at hx
        simp only [Bool.false_eq_true, if_false] at hx
        exact hacc x hx
    obtain ⟨hmem, hcont⟩ := ih (locationStep q acc p) hacc2 r h
    refine ⟨?_, hcont⟩
    rcases hmem with hmem | heq
    · exact Or.inl (List.mem_cons_of_mem p hmem)
    · unfold locationStep at heq
      by_cases hc : p.2.contains q = true
      · rw [if_pos hc] at heq
        cases hcase : acc with
        | none => rw [hcase] at heq; simp only at heq; cases heq; exact Or.inl (List.mem_cons_self p l)
        | some cur =>
          rw [hcase] at heq
          simp only at heq
          by_cases hs : p.2.span.is_smaller cur.2.span = true
          · rw [if_pos hs] at heq; cases heq; exact Or.inl (List.mem_cons_self p l)
          · rw [if_neg hs] at heq; exact Or.inr heq
      · simp only [Bool.not_eq_true] at hc
        rw [hc] at heq
        simp only [Bool.false_eq_true, if_false] at heq
        exact Or.inr heq

/-- The scan result's span width is minimal among the processed containing
entries and never exceeds the accumulator's width. -/
theorem locFold_min (q : Location) :
    ∀ (l : List (Nat × Location)) (acc : Option (Nat × Location))
      (r : Nat × Location), l.foldl (locationStep q) acc = some r →
      (∀ p ∈ l, p.2.contains q = true →
        r.2.span.stop - r.2.span.start ≤ p.2.span.stop - p.2.span.start)
      ∧ (∀ x, acc = some x →
        r.2.span.stop - r.2.span.start ≤ x.2.span.stop - x.2.span.start) := by
  intro l
  induction l with
  | nil =>
    intro acc r h
    simp only [List.foldl_nil] at h
    refine ⟨by simp, ?_⟩
    intro x hx
    rw [h] at hx
    cases hx
    exact Nat.le_refl _
  | cons p l ih =>
    intro acc r h
    simp only [List.foldl_cons] at h
    obtain ⟨Hl, Hacc⟩ := ih (locationStep q acc p) r h
    have step_le : ∀ y, locationStep q acc p = some y →
        (∀ x, acc = some x →
          y.2.span.stop - y.2.span.start ≤ x.2.span.stop - x.2.span.start) := by
      intro y hy x hx
      unfold locationStep at hy
      by_cases hc : p.2.contains q = true
      · rw [if_pos hc, hx] at hy
        simp only at hy
        by_cases hs : p.2.span.is_smaller x.2.span = true
        · rw [if_pos hs] at hy
          cases hy
          simp only [Span.is_smaller, decide_eq_true_eq] at hs
          exact Nat.le_of_lt hs
        · rw [if_neg hs] at hy
          cases hy
          exact Nat.le_refl _
      · simp only [Bool.not_eq_true] at hc
        rw [hc] at hy
        simp only [Bool.false_eq_true, if_false] at hy
        rw [hx] at hy
        cases hy
        exact Nat.le_refl _
    refine ⟨?_, ?_⟩
    · intro p2 hp2 hcont
      rcases List.mem_cons.mp hp2 with rfl | hmem
      · -- the head entry: the new accumulator's width is at most the head's
        have hstep : ∀ y, locationStep q acc p2 = some y →
            y.2.span.stop - y.2.span.start ≤ p2.2.span.stop - p2.2.span.start := by
          intro y hy
          unfold locationStep at hy
          rw [if_pos hcont] at hy
          cases hcase : acc with
          | none => rw [hcase] at hy; simp only at hy; cases hy; exact Nat.le_refl _
          | some cur =>
            rw [hcase] at hy
            simp only at hy
            by_cases hs : p2.2.span.is_smaller cur.2.span = true
            · rw [if_pos hs] at hy; cases hy; exact Nat.le_refl _
            · rw [if_neg hs] at hy
              cases hy
              simp only [Span.is_smaller, decide_eq_true_eq, Bool.not_eq_true,
                decide_eq_false_iff_not, Nat.not_lt] at hs
              exact hs
        cases hcase2 : locationStep q acc p2 with
        | none =>
          exfalso
          unfold locationStep at hcase2
          rw [if_pos hcont] at hcase2
          cases hcase3 : acc with
          | none => rw [hcase3] at hcase2; simp at hcase2
          | some cur =>
            rw [hcase3] at hcase2
            simp only at hcase2
            by_cases hs : p2.2.span.is_smaller cur.2.span = true
            · rw [if_pos hs] at hcase2; cases hcase2
            · rw [if_neg hs] at hcase2; cases hcase2
        | some y =>
          have h1 := Hacc y hcase2
          have h2 := hstep y hcase2
          exact Nat.le_trans h1 h2
      · exact Hl p2 hmem hcont
    · intro x hx
      by_cases hc : p.2.contains q = true
      · cases hcase : acc with
        | none => cases hx.symm.trans hcase
        | some cur =>
          have hx2 : cur = x := by rw [hcase] at hx; cases hx; rfl
          subst hx2
          have hy : locationStep q acc p =
              (if p.2.span.is_smaller cur.2.span = true then some p else some cur) := by
            unfold locationStep
            rw [if_pos hc, hcase]
          by_cases hs : p.2.span.is_smaller cur.2.span = true
          · rw [if_pos hs] at hy
            have h1 := Hacc p hy
            simp only [Span.is_smaller, decide_eq_true_eq] at hs
            exact Nat.le_trans h1 (Nat.le_of_lt hs)
          · rw [if_neg hs] at hy
            exact Hacc cur hy
      · have hy : locationStep q acc p = acc := by
          unfold locationStep
          simp only [Bool.not_eq_true] at hc
          rw [hc]
          simp
        exact Hacc x (hy.trans hx)

/-- The scan returns a candidate whenever the accumulator holds one or some
remaining entry contains the query. -/
theorem locFold_isSome (q : Location) :
    ∀ (l : List (Nat × Location)) (acc : Option (Nat × Location)),
      (acc.isSome = true ∨ ∃ p ∈ l, p.2.contains q = true) →
      (l.foldl (locationStep q) acc).isSome = true := by
  intro l
  induction l with
  | nil =>
    intro acc hyp
    rcases hyp with hyp | ⟨p, hp, _⟩
    · simpa using hyp
    · cases hp
  | cons p l ih =>
    intro acc hyp
    simp only [List.foldl_cons]
    apply ih
    by_cases hc : p.2.contains q = true
    · left
      unfold locationStep
      rw [if_pos hc]
      cases acc with
      | none => simp
      | some cur =>
        simp only
        by_cases hs : p.2.span.is_smaller cur.2.span = true
        · rw [if_pos hs]; rfl
        · rw [if_neg hs]; rfl
    · have hstep : locationStep q acc p = acc := by
        unfold locationStep
        simp only [Bool.not_eq_true] at hc
        rw [hc]
        simp
      rw [hstep]
      rcases hyp with hyp | ⟨p2, hp2, hcont2⟩
      · exact Or.inl hyp
      · rcases List.mem_cons.mp hp2 with rfl | hmem
        · exact absurd hcont2 hc
        · exact Or.inr ⟨p2, hmem, hcont2⟩

/-- Claim C5: `find_location_index` returns an index whose recorded location
contains the query and whose span is smallest among all containing entries;
it finds an index whenever some entry contains the query; and on the
concrete scenario with recorded spans 0..100 and 40..60 a query inside
45..50 returns the entry with span 40..60. -/
theorem claim_C5_find_location_innermost :
    (∀ (s : NodeInterner) (q : Location) (idx : Nat),
        s.find_location_index q = some idx →
        ∃ loc, (idx, loc) ∈ s.id_to_location ∧ loc.contains q = true ∧
          ∀ p ∈ s.id_to_location, p.2.contains q = true →
            p.2.span.is_smaller loc.span = false)
    ∧ (∀ (s : NodeInterner) (q : Location) (p : Nat × Location),
        p ∈ s.id_to_location → p.2.contains q = true →
        (s.find_location_index q).isSome = true)
    ∧ locInterner.find_location_index ⟨⟨45, 50⟩, 7⟩ = some 1 := by
  refine ⟨?_, ?_, rfl⟩
  · intro s q idx h
    unfold NodeInterner.find_location_index at h
    rw [Option.map_eq_some'] at h
    obtain ⟨r, hr, hidx⟩ := h
    obtain ⟨hmem, hcont⟩ :=
      locFold_some_facts q s.id_to_location none (by intro x hx; cases hx) r hr
    rcases hmem with hmem | hnone
    · refine ⟨r.2, ?_, hcont, ?_⟩
      · rw [← hidx]
        exact hmem
      · intro p hp hpc
        obtain ⟨Hl, _⟩ := locFold_min q s.id_to_location none r hr
        have := Hl p hp hpc
        simp only [Span.is_smaller, decide_eq_false_iff_not, Nat.not_lt]
        exact this
    · cases hnone
  · intro s q p hp hc
    unfold NodeInterner.find_location_index
    have h2 := locFold_isSome q s.id_to_location none (Or.inr ⟨p, hp, hc⟩)
    obtain ⟨r, hr⟩ := Option.isSome_iff_exists.mp h2
    rw [hr]
    rfl

/-- Witness for claim C5 at the concrete scenario: querying span 45..50 of
file 7 yields an entry that contains the query and is not beaten by any
smaller containing span, and the scan is total for contained queries. -/
theorem claim_C5_witness :
    (∃ loc, ((1 : Nat), loc) ∈ locInterner.id_to_location ∧
      loc.contains ⟨⟨45, 50⟩, 7⟩ = true ∧
      ∀ p ∈ locInterner.id_to_location, p.2.contains ⟨⟨45, 50⟩, 7⟩ = true →
        p.2.span.is_smaller loc.span = false)
    ∧ (locInterner.find_location_index ⟨⟨45, 50⟩, 7⟩).isSome = true :=
  ⟨claim_C5_find_location_innermost.1 locInterner ⟨⟨45, 50⟩, 7⟩ 1 rfl,
    claim_C5_find_location_innermost.2.1 locInterner ⟨⟨45, 50⟩, 7⟩
      (0, ⟨⟨0, 100⟩, 7⟩) (List.mem_cons_self _ _) (by decide)⟩

/-- Claim C3: `add_assumed_trait_implementation` returns true and appends an
Assumed entry exactly when no existing impl resolves for the pair (and
returns false leaving the state untouched otherwise), and after
`remove_assumed_trait_implementations_for_trait` every remaining entry for
that trait is Normal. -/
theorem claim_C3_assumed_impls :
    (∀ (s : NodeInterner) (T : NoirType) (tr : Nat),
        ((s.try_lookup_trait_implementation T tr).isOk = true →
          s.add_assumed_trait_implementation T tr = (false, s))
        ∧ ((s.try_lookup_trait_implementation T tr).isOk = false →
          (s.add_assumed_trait_implementation T tr).1 = true ∧
          (s.add_assumed_trait_implementation T tr).2.trait_implementation_map tr =
            some (((s.trait_implementation_map tr).getD []) ++
              [(T, TraitImplKind.Assumed T)])))
    ∧ (∀ (s : NodeInterner) (tr : Nat) (p : NoirType × TraitImplKind),
        p ∈ ((s.remove_assumed_trait_implementations_for_trait
          tr).trait_implementation_map tr).getD [] → p.2.isNormal = true) := by
  constructor
  · intro s T tr
    constructor
    · intro hok
      unfold NodeInterner.add_assumed_trait_implementation
      cases h : s.try_lookup_trait_implementation T tr with
      | ok v => rfl
      | error e => rw [h] at hok; cases hok
    · intro herr
      unfold NodeInterner.add_assumed_trait_implementation
      cases h : s.try_lookup_trait_implementation T tr with
      | ok v => rw [h] at herr; cases herr
      | error e =>
        refine ⟨rfl, ?_⟩
        unfold NodeInterner.setImplMap
        simp
  · intro s tr p hp
    unfold NodeInterner.remove_assumed_trait_implementations_for_trait
      NodeInterner.setImplMap at hp
    simp only [if_pos rfl, Option.getD_some] at hp
    exact (List.mem_filter.mp hp).2

/-- Witness for claim C3: on the fresh interner the assumed impl for
`u32: trait 0` is accepted and recorded; on the interner already holding a
Normal impl for the pair it is rejected without a state change; and after
removing assumed impls from a mixed entry list only the Normal entry
survives. -/
theorem claim_C3_witness :
    ((NodeInterner.empty.add_assumed_trait_implementation u32T 0).1 = true ∧
      (NodeInterner.empty.add_assumed_trait_implementation
        u32T 0).2.trait_implementation_map 0 =
        some (((NodeInterner.empty.trait_implementation_map 0).getD []) ++
          [(u32T, TraitImplKind.Assumed u32T)]))
    ∧ s1C.add_assumed_trait_implementation u32T 0 = (false, s1C)
    ∧ ((u32T, TraitImplKind.Normal 0) ∈
        ((s1C.remove_assumed_trait_implementations_for_trait
          0).trait_implementation_map 0).getD [] →
        (TraitImplKind.Normal 0).isNormal = true) :=
  ⟨(claim_C3_assumed_impls.1 NodeInterner.empty u32T 0).2 rfl,
    (claim_C3_assumed_impls.1 s1C u32T 0).1 rfl,
    fun h => claim_C3_assumed_impls.2 s1C 0 (u32T, TraitImplKind.Normal 0) h⟩

/-- Recording an operator trait leaves the traits table unchanged. -/
theorem insertOperator_traits (s : NodeInterner) (op : BinaryOpKind) (tr : Nat) :
    (s.insertOperator op tr).traits = s.traits := rfl

/-- Reading the operator-traits table after recording an operator. -/
theorem insertOperator_get (s : NodeInterner) (op : BinaryOpKind) (tr : Nat)
    (k : BinaryOpKind) :
    (s.insertOperator op tr).operator_traits k =
      if k = op then some tr else s.operator_traits k := rfl

/-- Claim C4: registering a trait named `Eq` maps both `==` and `!=` to its
trait id; registering a trait named `Ord` maps `<`, `<=`, `>` and `>=` to
its trait id and stores the return type of its first method's
`Forall(_, Function(_, ret, _))` signature as the ordering type. -/
theorem claim_C4_operator_traits :
    (∀ (s : NodeInterner) (tr : Nat) (t : TraitDef),
        s.traits tr = some t → t.name = "Eq" →
        ∃ s2, s.try_add_operator_trait tr = some s2 ∧
          s2.operator_traits BinaryOpKind.Equal = some tr ∧
          s2.operator_traits BinaryOpKind.NotEqual = some tr)
    ∧ (∀ (s : NodeInterner) (tr : Nat) (t : TraitDef) (vs : List Nat)
        (args : List NoirType) (ret env : NoirType),
        s.traits tr = some t → t.name = "Ord" →
        t.methods.head? = some ⟨.Forall vs (.Function args ret env)⟩ →
        ∃ s2, s.try_add_operator_trait tr = some s2 ∧
          s2.operator_traits BinaryOpKind.Less = some tr ∧
          s2.operator_traits BinaryOpKind.LessEqual = some tr ∧
          s2.operator_traits BinaryOpKind.Greater = some tr ∧
          s2.operator_traits BinaryOpKind.GreaterEqual = some tr ∧
          s2.ordering_type = some ret) := by
  constructor
  · intro s tr t ht hname
    simp only [NodeInterner.try_add_operator_trait, ht, hname]
    refine ⟨_, rfl, ?_, ?_⟩
    · unfold NodeInterner.insertOperator
      simp
    · unfold NodeInterner.insertOperator
      simp
  · intro s tr t vs args ret env ht hname hmethod
    simp only [NodeInterner.try_add_operator_trait, insertOperator_traits, ht, hname,
      hmethod]
    refine ⟨_, rfl, ?_, ?_, ?_, ?_, rfl⟩ <;> simp [insertOperator_get]

/-- Witness for claim C4 on an interner holding `Ord` as trait 4 and `Eq` as
trait 5, with the ordering type the struct type 9. -/
theorem claim_C4_witness :
    (∃ s2, opInterner.try_add_operator_trait 5 = some s2 ∧
      s2.operator_traits BinaryOpKind.Equal = some 5 ∧
      s2.operator_traits BinaryOpKind.NotEqual = some 5)
    ∧ (∃ s2, opInterner.try_add_operator_trait 4 = some s2 ∧
      s2.operator_traits BinaryOpKind.Less = some 4 ∧
      s2.operator_traits BinaryOpKind.LessEqual = some 4 ∧
      s2.operator_traits BinaryOpKind.Greater = some 4 ∧
      s2.operator_traits BinaryOpKind.GreaterEqual = some 4 ∧
      s2.ordering_type = some (.Struct 9 [])) :=
  ⟨claim_C4_operator_traits.1 opInterner 5 eqTrait rfl rfl,
    claim_C4_operator_traits.2 opInterner 4 ordTrait [3]
      [.TypeVariable 3 .normal, .TypeVariable 3 .normal] (.Struct 9 []) .Unit
      rfl rfl rfl⟩

/-- Claim C9: when `add_trait_implementation` returns an overlap error, the
new impl has already been appended to `trait_implementations` (so
`next_trait_impl_id` advances by one), while the per-trait map entry and the
method tables are untouched. -/
theorem claim_C9_error_still_pushes :
    ∀ (s : NodeInterner) (T : NoirType) (tr impl_id : Nat) (imp : TraitImpl)
      (e : Span × Nat) (s2 : NodeInterner),
      s.add_trait_implementation T tr impl_id imp = some (some e, s2) →
      s2.trait_implementations = s.trait_implementations ++ [imp]
      ∧ s2.next_trait_impl_id = s.next_trait_impl_id + 1
      ∧ s2.trait_implementation_map = s.trait_implementation_map
      ∧ s2.struct_methods = s.struct_methods
      ∧ s2.primitive_methods = s.primitive_methods := by
  intro s T tr impl_id imp e s2 h
  unfold NodeInterner.add_trait_implementation at h
  by_cases hid : impl_id = s.trait_implementations.length
  · rw [if_pos hid] at h
    simp only [] at h
    cases hprobe : (s.pushImpl imp).try_lookup_trait_implementation
        (instantiate_type_variables T (s.pushImpl imp)).1 tr with
    | ok v =>
      obtain ⟨kind, b⟩ := v
      cases kind with
      | Normal existing =>
        rw [hprobe] at h
        simp only [Option.some.injEq, Prod.mk.injEq] at h
        obtain ⟨_, hs2⟩ := h
        subst hs2
        refine ⟨rfl, ?_, rfl, rfl, rfl⟩
        simp [NodeInterner.next_trait_impl_id, NodeInterner.pushImpl]
      | Assumed o =>
        rw [hprobe] at h
        simp only [Option.some.injEq, Prod.mk.injEq] at h
        exact absurd h.1 (by simp)
    | error errs =>
      rw [hprobe] at h
      simp only [Option.some.injEq, Prod.mk.injEq] at h
      exact absurd h.1 (by simp)
  · rw [if_neg hid] at h
    cases h

/-- Witness for claim C9: the overlapping second registration of
`impl u32: trait 0` errors with the first impl's span and file while having
pushed the new impl, leaving the map and method tables unchanged. -/
theorem claim_C9_witness :
    (s1C.pushImpl impB).trait_implementations = s1C.trait_implementations ++ [impB]
    ∧ (s1C.pushImpl impB).next_trait_impl_id = s1C.next_trait_impl_id + 1
    ∧ (s1C.pushImpl impB).trait_implementation_map = s1C.trait_implementation_map
    ∧ (s1C.pushImpl impB).struct_methods = s1C.struct_methods
    ∧ (s1C.pushImpl impB).primitive_methods = s1C.primitive_methods :=
  claim_C9_error_still_pushes s1C u32T 0 1 impB (⟨10, 12⟩, 1) (s1C.pushImpl impB) rfl

/-- True when a receiver type is a struct, reading through mutable
references the way `add_method` recurses. -/
def receiverIsStruct : NoirType → Bool
  | .Struct _ _ => true
  | .MutableReference element => receiverIsStruct element
  | _ => false

/-- True for the receivers handled by the catch-all arm of `add_method`
(neither struct nor `Error` nor mutable reference). -/
def receiverOther : NoirType → Bool
  | .Struct _ _ => false
  | .Error => false
  | .MutableReference _ => false
  | _ => true

/-- When `add_method` reports a duplicate, the receiver is a struct after
reading through mutable references (structural recursion over the
receiver). -/
theorem addMethodSomeIsStruct : (t : NoirType) → ∀ (s : NodeInterner) (n : String)
    (mid : Nat) (b : Bool) (dup : Nat),
    (s.add_method t n mid b).1 = some dup → receiverIsStruct t = true
  | .Struct _ _ => fun _ _ _ _ _ _ => rfl
  | .MutableReference e => fun s n mid b dup h => addMethodSomeIsStruct e s n mid b dup h
  | .FieldElement => fun s n mid b dup h => by
    simp [NodeInterner.add_method, get_type_method_key] at h
  | .Array _ _ => fun s n mid b dup h => by
    simp [NodeInterner.add_method, get_type_method_key] at h
  | .Integer _ _ => fun s n mid b dup h => by
    simp [NodeInterner.add_method, get_type_method_key] at h
  | .Bool => fun s n mid b dup h => by
    simp [NodeInterner.add_method, get_type_method_key] at h
  | .String _ => fun s n mid b dup h => by
    simp [NodeInterner.add_method, get_type_method_key] at h
  | .FmtString _ _ => fun s n mid b dup h => by
    simp [NodeInterner.add_method, get_type_method_key] at h
  | .Unit => fun s n mid b dup h => by
    simp [NodeInterner.add_method, get_type_method_key] at h
  | .Tuple _ => fun s n mid b dup h => by
    simp [NodeInterner.add_method, get_type_method_key] at h
  | .TraitAsType _ => fun s n mid b dup h => by
    simp [NodeInterner.add_method, get_type_method_key] at h
  | .Function _ _ _ => fun s n mid b dup h => by
    simp [NodeInterner.add_method, get_type_method_key] at h
  | .Forall _ _ => fun s n mid b dup h => by
    simp [NodeInterner.add_method, get_type_method_key] at h
  | .Constant _ => fun s n mid b dup h => by
    simp [NodeInterner.add_method, get_type_method_key] at h
  | .NotConstant => fun s n mid b dup h => by
    simp [NodeInterner.add_method, get_type_method_key] at h
  | .Error => fun s n mid b dup h => by
    simp [NodeInterner.add_method] at h
  | .TypeVariable _ k => fun s n mid b dup h => by
    cases k <;> simp [NodeInterner.add_method, get_type_method_key] at h
  | .NamedGeneric _ _ => fun s n mid b dup h => by
    simp [NodeInterner.add_method, get_type_method_key] at h

/-- Claim C10: `add_method` reports a duplicate only when the receiver
(after reading through mutable references) is a struct; an `Error` receiver
returns none and records nothing; and every other method-carrying receiver
appends to the primitive-methods table and returns none regardless of what
is already registered there. -/
theorem claim_C10_add_method_receivers :
    (∀ (s : NodeInterner) (t : NoirType) (n : String) (mid : Nat) (b : Bool) (dup : Nat),
        (s.add_method t n mid b).1 = some dup → receiverIsStruct t = true)
    ∧ (∀ (s : NodeInterner) (n : String) (mid : Nat) (b : Bool),
        s.add_method .Error n mid b = (none, s))
    ∧ (∀ (s : NodeInterner) (t : NoirType) (n : String) (mid : Nat) (b : Bool)
        (k : TypeMethodKey),
        receiverOther t = true → get_type_method_key t = some k →
        s.add_method t n mid b =
          (none, s.setPrimitiveMethods (k, n)
            (((s.primitive_methods (k, n)).getD ⟨[], []⟩).add_method mid b))) := by
  refine ⟨?_, ?_, ?_⟩
  · intro s t n mid b dup h
    exact addMethodSomeIsStruct t s n mid b dup h
  · intro s n mid b
    rfl
  · intro s t n mid b k hother hkey
    cases t <;> simp_all [NodeInterner.add_method, receiverOther]

/-- Witness for claim C10: on the interner holding method 3 for
`(struct 7, "foo")`, re-adding "foo" with the same object type reports 3 as
the duplicate (a struct receiver); and adding a method on `bool` appends to
the primitive table. -/
theorem claim_C10_witness :
    receiverIsStruct (.Struct 7 []) = true
    ∧ structMethodInterner.add_method .Error "err" 11 false = (none, structMethodInterner)
    ∧ structMethodInterner.add_method .Bool "flip" 12 false =
        (none, structMethodInterner.setPrimitiveMethods (TypeMethodKey.Bool, "flip")
          (((structMethodInterner.primitive_methods
            (TypeMethodKey.Bool, "flip")).getD ⟨[], []⟩).add_method 12 false)) :=
  ⟨claim_C10_add_method_receivers.1 structMethodInterner (.Struct 7 []) "foo" 9 false 3 rfl,
    claim_C10_add_method_receivers.2.1 structMethodInterner "err" 11 false,
    claim_C10_add_method_receivers.2.2 structMethodInterner .Bool "flip" 12 false
      TypeMethodKey.Bool rfl rfl⟩

/-- A first-match search returns the unique element satisfying the
predicate. -/
theorem find_unique {α : Type} (p : α → Bool) :
    ∀ (l : List α) (m : α), m ∈ l → p m = true →
      (∀ x ∈ l, p x = true → x = m) → l.find? p = some m := by
  intro l
  induction l with
  | nil => intro m hm; cases hm
  | cons a l ih =>
    intro m hm hpm huniq
    by_cases hpa : p a = true
    · have := huniq a (List.mem_cons_self a l) hpa
      subst this
      simp [List.find?, hpa]
    · have hne : m ≠ a := by
        intro he
        subst he
        exact hpa hpm
      have hmem : m ∈ l := by
        rcases List.mem_cons.mp hm with rfl | hmem
        · exact absurd rfl hne
        · exact hmem
      have hrec := ih m hmem hpm (fun x hx hpx => huniq x (List.mem_cons_of_mem a hx) hpx)
      simp only [List.find?]
      rw [Bool.not_eq_true] at hpa
      rw [hpa]
      exact hrec

/-- Claim C6, counterexample: the claim states that an entry holding at
least one direct and at least one trait-impl method makes `get_unambiguous`
return none, but with exactly one direct method the source returns that
direct method (inherent methods take precedence) even though a trait-impl
method exists. -/
theorem claim_C6_counterexample :
    (Methods.mk [7] [8]).direct ≠ [] ∧ (Methods.mk [7] [8]).trait_impl_methods ≠ []
    ∧ (Methods.mk [7] [8]).get_unambiguous = some 7
    ∧ (Methods.mk [7] [8]).get_unambiguous ≠ none := by
  refine ⟨by simp, by simp, rfl, by simp [Methods.get_unambiguous]⟩

/-- Claim C6, amended: for an entry holding at least one direct and at least
one trait-impl method, `get_unambiguous` returns the single direct method
when there is exactly one (inherent precedence) and none otherwise; and
`lookup_method` with `force_type_check` returns exactly the single method
whose instantiated first-parameter type unifies with the query type, when
exactly one such method exists. -/
theorem claim_C6_method_dispatch :
    (∀ ms : Methods, ms.direct ≠ [] → ms.trait_impl_methods ≠ [] →
        (ms.direct.length = 1 → ms.get_unambiguous = ms.direct.head?)
        ∧ (ms.direct.length ≠ 1 → ms.get_unambiguous = none))
    ∧ (∀ (s : NodeInterner) (t : NoirType) (sid : Nat) (name : String)
        (ms : Methods) (m : Nat),
        s.struct_methods (sid, name) = some ms →
        m ∈ ms.iter →
        methodSignatureMatches s t m = true →
        (∀ m2 ∈ ms.iter, methodSignatureMatches s t m2 = true → m2 = m) →
        s.lookup_method t sid name true = some m) := by
  constructor
  · intro ms hd ht
    constructor
    · intro h1
      unfold Methods.get_unambiguous
      rw [if_pos h1]
    · intro h1
      unfold Methods.get_unambiguous
      rw [if_neg h1, if_neg]
      intro ⟨hempty, _⟩
      exact hd (List.isEmpty_iff.mp hempty)
  · intro s t sid name ms m hms hmem hmatch huniq
    unfold NodeInterner.lookup_method
    rw [hms]
    simp only [Bool.not_true, if_neg]
    unfold NodeInterner.find_matching_method
    unfold Methods.find_matching_method
    rw [find_unique (methodSignatureMatches s t) ms.iter m hmem hmatch huniq]
    simp

/-- Witness for claim C6: on the interner holding the single matching method
3 for `(struct 7, "foo")`, the forced lookup returns 3; and the amended
`get_unambiguous` facts hold at the mixed entry `{direct [7], trait [8]}`. -/
theorem claim_C6_witness :
    structMethodInterner.lookup_method (.Struct 7 []) 7 "foo" true = some 3
    ∧ (Methods.mk [7] [8]).get_unambiguous = (Methods.mk [7] [8]).direct.head? :=
  ⟨claim_C6_method_dispatch.2 structMethodInterner (.Struct 7 []) 7 "foo" ⟨[3], []⟩ 3
      rfl (List.mem_cons_self 3 []) rfl (by decide),
    (claim_C6_method_dispatch.1 (Methods.mk [7] [8]) (by simp) (by simp)).1 rfl⟩

/-- Adding a method never touches the trait-implementation map or the
implementations vector. -/
theorem addMethodPreservesImpls : (t : NoirType) → ∀ (s : NodeInterner) (n : String)
    (mid : Nat) (b : Bool),
    (s.add_method t n mid b).2.trait_implementation_map = s.trait_implementation_map
    ∧ (s.add_method t n mid b).2.trait_implementations = s.trait_implementations
  | .Struct i a => fun s n mid b => by
    cases hl : s.lookup_method (.Struct i a) i n true with
    | some ex => simp [NodeInterner.add_method, hl]
    | none => simp [NodeInterner.add_method, hl, NodeInterner.setStructMethods]
  | .MutableReference e => fun s n mid b => addMethodPreservesImpls e s n mid b
  | .FieldElement => fun _ _ _ _ => ⟨rfl, rfl⟩
  | .Array _ _ => fun _ _ _ _ => ⟨rfl, rfl⟩
  | .Integer _ _ => fun _ _ _ _ => ⟨rfl, rfl⟩
  | .Bool => fun _ _ _ _ => ⟨rfl, rfl⟩
  | .String _ => fun _ _ _ _ => ⟨rfl, rfl⟩
  | .FmtString _ _ => fun _ _ _ _ => ⟨rfl, rfl⟩
  | .Unit => fun _ _ _ _ => ⟨rfl, rfl⟩
  | .Tuple _ => fun _ _ _ _ => ⟨rfl, rfl⟩
  | .TraitAsType _ => fun _ _ _ _ => ⟨rfl, rfl⟩
  | .Function _ _ _ => fun _ _ _ _ => ⟨rfl, rfl⟩
  | .Forall _ _ => fun _ _ _ _ => ⟨rfl, rfl⟩
  | .Constant _ => fun _ _ _ _ => ⟨rfl, rfl⟩
  | .NotConstant => fun _ _ _ _ => ⟨rfl, rfl⟩
  | .Error => fun _ _ _ _ => ⟨rfl, rfl⟩
  | .TypeVariable _ k => fun _ _ _ _ => by cases k <;> exact ⟨rfl, rfl⟩
  | .NamedGeneric _ _ => fun _ _ _ _ => ⟨rfl, rfl⟩

/-- Registering the methods of an impl never touches the
trait-implementation map or the implementations vector. -/
theorem foldAddMethodsPreservesImpls (methods : List Nat) :
    ∀ (s : NodeInterner) (T : NoirType),
    (methods.foldl
      (fun acc method => (acc.add_method T (acc.function_name method) method true).2)
      s).trait_implementation_map = s.trait_implementation_map
    ∧ (methods.foldl
      (fun acc method => (acc.add_method T (acc.function_name method) method true).2)
      s).trait_implementations = s.trait_implementations := by
  induction methods with
  | nil => intro s T; exact ⟨rfl, rfl⟩
  | cons m ms ih =>
    intro s T
    simp only [List.foldl_cons]
    obtain ⟨h1, h2⟩ := ih (s.add_method T (s.function_name m) m true).2 T
    obtain ⟨g1, g2⟩ := addMethodPreservesImpls T s (s.function_name m) m true
    exact ⟨h1.trans g1, h2.trans g2⟩

/-- A successful helper search selects one of the per-trait candidate
entries: the returned impl kind is the kind stored in some entry of the
trait's candidate list. -/
theorem helperF_ok_mem (s : NodeInterner) :
    ∀ (f : Nat) (ot : NoirType) (tr : Nat) (tb : TypeBindings) (limit : Nat)
      (k : TraitImplKind) (tb2 : TypeBindings)
      (entries : List (NoirType × TraitImplKind)),
      s.trait_implementation_map tr = some entries →
      helperF s f ot tr tb limit = .ok (k, tb2) →
      ∃ p ∈ entries, p.2 = k := by
  intro f ot tr tb limit k tb2 entries hmap h
  cases f with
  | zero => cases h
  | succ f =>
    cases limit with
    | zero => cases h
    | succ l =>
      simp only [helperF] at h
      rw [hmap] at h
      simp only [] at h
      cases hfind : entries.findSome? (fun p =>
          Option.map (fun fresh => (p.2, (p.1.instantiate s).2, fresh))
            (try_unify UNIFY_FUEL [] (ot.substitute tb) (p.1.instantiate s).1)) with
      | none => rw [hfind] at h; cases h
      | some triple =>
        rw [hfind] at h
        obtain ⟨kind, instB, fresh⟩ := triple
        obtain ⟨p, hp, hfp⟩ := List.exists_of_findSome?_eq_some hfind
        simp only [Option.map_eq_some'] at hfp
        obtain ⟨fresh0, _, hinj⟩ := hfp
        have hkind : p.2 = kind := by
          have := congrArg Prod.fst hinj
          simpa using this
        cases kind with
        | Assumed o =>
          simp only [] at h
          cases h
          exact ⟨p, hp, hkind⟩
        | Normal impl_id =>
          simp only [] at h
          revert h
          cases hwc : (s.get_trait_implementation impl_id).where_clause.findSome?
              (fun c =>
                match helperF s f
                    ((c.typ.force_substitute instB).substitute (extendBindings tb fresh))
                    c.trait_id [] l with
                | .error e => some e
                | .ok _ => none) with
          | some errs => intro h; cases h
          | none =>
            intro h
            cases h
            exact ⟨p, hp, hkind⟩

/-- A lookup for a trait with no candidate list fails with the singleton
constraint. -/
theorem helperF_no_entries (s : NodeInterner) (f l : Nat) (ot : NoirType) (tr : Nat)
    (tb : TypeBindings) (h : s.trait_implementation_map tr = none) :
    helperF s (f+1) ot tr tb (l+1) = .error [⟨ot, tr⟩] := by
  simp only [helperF]
  rw [h]

/-- The `try_lookup_trait_implementation` form of the previous lemma. -/
theorem try_lookup_no_entries (s : NodeInterner) (ot : NoirType) (tr : Nat)
    (h : s.trait_implementation_map tr = none) :
    s.try_lookup_trait_implementation ot tr = .error [⟨ot, tr⟩] := by
  have heq : s.try_lookup_trait_implementation ot tr = helperF s (999+1) ot tr [] (9+1) :=
    rfl
  rw [heq, helperF_no_entries s 999 9 ot tr [] h]

/-- Pushing an impl record does not change the per-trait entry map. -/
theorem pushImpl_map (s : NodeInterner) (i : TraitImpl) :
    (s.pushImpl i).trait_implementation_map = s.trait_implementation_map := rfl

/-- Pushing an impl record appends it to the implementations vector. -/
theorem pushImpl_impls (s : NodeInterner) (i : TraitImpl) :
    (s.pushImpl i).trait_implementations = s.trait_implementations ++ [i] := rfl

/-- Replacing a per-trait entry list does not change the implementations
vector. -/
theorem setImplMap_impls (s : NodeInterner) (tr : Nat)
    (es : List (NoirType × TraitImplKind)) :
    (s.setImplMap tr es).trait_implementations = s.trait_implementations := rfl

/-- Reading back the per-trait entry list that was just replaced. -/
theorem setImplMap_self (s : NodeInterner) (tr : Nat)
    (es : List (NoirType × TraitImplKind)) :
    (s.setImplMap tr es).trait_implementation_map tr = some es := by
  simp [NodeInterner.setImplMap]

/-- Claim C1: starting from a state with no impls for the trait, after a
first successful `add_trait_implementation` of a Normal impl, a second call
whose object type (instantiated) unifies with the registered one — i.e. the
overlap probe resolves a Normal impl — returns the first impl's defining
ident span and file; an overlapping Assumed impl never causes this error
(the call still succeeds). -/
theorem claim_C1_overlap_detection :
    (∀ (s s1 : NodeInterner) (t1 t2 : NoirType) (tr : Nat) (im1 im2 : TraitImpl)
        (e : Nat) (b : TypeBindings),
        s.trait_implementation_map tr = none →
        s.add_trait_implementation t1 tr s.trait_implementations.length im1 =
          some (none, s1) →
        (s1.pushImpl im2).try_lookup_trait_implementation
          (instantiate_type_variables t2 (s1.pushImpl im2)).1 tr =
          .ok (.Normal e, b) →
        s1.add_trait_implementation t2 tr s1.trait_implementations.length im2 =
          some (some (im1.ident_span, im1.file), s1.pushImpl im2))
    ∧ (∀ (s : NodeInterner) (t : NoirType) (tr : Nat) (im : TraitImpl)
        (ot : NoirType) (b : TypeBindings),
        (s.pushImpl im).try_lookup_trait_implementation
          (instantiate_type_variables t (s.pushImpl im)).1 tr =
          .ok (.Assumed ot, b) →
        ∃ s2, s.add_trait_implementation t tr s.trait_implementations.length im =
          some (none, s2)) := by
  constructor
  · intro s s1 t1 t2 tr im1 im2 e b hmap h1 h2
    unfold NodeInterner.add_trait_implementation at h1
    rw [if_pos rfl] at h1
    simp only [] at h1
    have hprobe1 : (s.pushImpl im1).try_lookup_trait_implementation
        (instantiate_type_variables t1 (s.pushImpl im1)).1 tr =
        .error [⟨(instantiate_type_variables t1 (s.pushImpl im1)).1, tr⟩] :=
      try_lookup_no_entries _ _ _ hmap
    rw [hprobe1] at h1
    simp only [Option.some.injEq, Prod.mk.injEq] at h1
    obtain ⟨-, hs1⟩ := h1
    have hfold := foldAddMethodsPreservesImpls im1.methods (s.pushImpl im1) t1
    have hmapS1 : s1.trait_implementation_map tr =
        some [(generalize_from_substitutions t1
          (instantiate_type_variables t1 (s.pushImpl im1)).2,
          TraitImplKind.Normal s.trait_implementations.length)] := by
      rw [← hs1]
      rw [setImplMap_self]
      rw [hfold.1, pushImpl_map, hmap]
      rfl
    have himplsS1 : s1.trait_implementations = s.trait_implementations ++ [im1] := by
      rw [← hs1]
      rw [setImplMap_impls]
      rw [hfold.2, pushImpl_impls]
    unfold NodeInterner.add_trait_implementation
    rw [if_pos rfl]
    simp only []
    rw [h2]
    have h2f : helperF (s1.pushImpl im2) HELPER_FUEL
        (instantiate_type_variables t2 (s1.pushImpl im2)).1 tr []
        IMPL_SEARCH_RECURSION_LIMIT = .ok (.Normal e, b) := h2
    have hmapS1push : (s1.pushImpl im2).trait_implementation_map tr =
        some [(generalize_from_substitutions t1
          (instantiate_type_variables t1 (s.pushImpl im1)).2,
          TraitImplKind.Normal s.trait_implementations.length)] := by
      rw [pushImpl_map]
      exact hmapS1
    obtain ⟨p, hp, hpk⟩ := helperF_ok_mem (s1.pushImpl im2) HELPER_FUEL
      (instantiate_type_variables t2 (s1.pushImpl im2)).1 tr []
      IMPL_SEARCH_RECURSION_LIMIT (.Normal e) b _ hmapS1push h2f
    rw [List.mem_singleton] at hp
    subst hp
    have hNe : s.trait_implementations.length = e := by
      injection hpk
    subst hNe
    have hi : (s1.pushImpl im2).get_trait_implementation
        s.trait_implementations.length = im1 := by
      unfold NodeInterner.get_trait_implementation
      rw [pushImpl_impls, himplsS1]
      rw [List.get?_append (by simp)]
      rw [List.get?_concat_length]
      rfl
    simp only []
    rw [hi]
  · intro s t tr im ot b h
    unfold NodeInterner.add_trait_implementation
    rw [if_pos rfl]
    simp only []
    rw [h]
    exact ⟨_, rfl⟩

/-- Witness for claim C1: registering `impl u32: trait 0` twice from the
fresh interner makes the second call fail with the first impl's span 10..12
and file 1, and on an interner holding only an Assumed entry for the pair
the registration succeeds. -/
theorem claim_C1_witness :
    s1C.add_trait_implementation u32T 0 s1C.trait_implementations.length impB =
      some (some (impA.ident_span, impA.file), s1C.pushImpl impB)
    ∧ ∃ s2, assumedInterner.add_trait_implementation u32T 0
        assumedInterner.trait_implementations.length impB = some (none, s2) :=
  ⟨claim_C1_overlap_detection.1 NodeInterner.empty s1C u32T u32T 0 impA impB 0 []
      rfl rfl rfl,
    claim_C1_overlap_detection.2 assumedInterner u32T 0 impB u32T [] rfl⟩
